import Mathlib

/-!
Verification of the preference-storage logic of `hal/broker.go`
(Netflix/hal-9001).

The persistent store is modelled as a list of rows of the `prefs` table
(columns `user, channel, broker, plugin, pkey, value`, see `PREFS_TABLE`).
The SQL statements issued by the Go code are embedded by their WHERE-clause
semantics over that list:
  - `Pref.get` runs an exact-match (AND) query on the four scope columns,
    adding a `pkey` clause only when `Key` is non-empty;
  - `Pref.Find` runs a disjunctive (OR) query over the non-empty fields,
    with no WHERE clause at all when every field is empty;
  - `Pref.Set` runs an `INSERT ... ON DUPLICATE KEY UPDATE`, i.e. an upsert
    keyed on the 5-column primary key `(user, channel, broker, plugin, pkey)`.
A backend failure of `db.Query` is modelled by feeding the row-consuming
part of each reader an `Except.error`; `panic` in `Pref.Get` is modelled by
`Except.error` in its result type.
-/

/-- A row of the `prefs` table (`PREFS_TABLE` in broker.go).
The key column is called `pkey` because `key` is a reserved word in SQL. -/
structure Row where
  user : String := ""
  channel : String := ""
  broker : String := ""
  plugin : String := ""
  pkey : String := ""
  value : String := ""
  deriving Repr, DecidableEq

/-- The persisted relation: the rows of the `prefs` table, in storage order. -/
abbrev DB := List Row

/-- The Go struct `Pref`: a key/value pair associated with a combination of
user, plugin, broker, channel.  `Error` is Go's `error` field, modelled as
an optional message. -/
structure Pref where
  User : String := ""
  Plugin : String := ""
  Broker : String := ""
  Channel : String := ""
  Key : String := ""
  Value : String := ""
  Default : String := ""
  Success : Bool := false
  Error : Option String := none
  deriving Repr, DecidableEq

/-- The Go type `Prefs = []*Pref`. -/
abbrev Prefs := List Pref

/-- WHERE clause of the SELECT in `Pref.get`: equality on all four scope
columns, and on `pkey` only if `in.Key` is non-empty ("only query by key if
it's specified, otherwise get all keys for the selection"). -/
def getWhere (p : Pref) (r : Row) : Bool :=
  r.user == p.User && r.channel == p.Channel && r.broker == p.Broker &&
    r.plugin == p.Plugin && (p.Key == "" || r.pkey == p.Key)

/-- One iteration of the scan loop in `Pref.get`: `p := *in` followed by
`rows.Scan(&p.User, &p.Channel, &p.Broker, &p.Plugin, &p.Key, &p.Value)`.
All remaining fields (`Default`, `Success`, `Error`) are kept from `in`. -/
def scanGetRow (p : Pref) (r : Row) : Pref :=
  { p with User := r.user, Channel := r.channel, Broker := r.broker,
           Plugin := r.plugin, Key := r.pkey, Value := r.value }

/-- The part of `Pref.get` after `db.Query` returned: on query failure it
logs and returns the empty `Prefs{}`; otherwise it scans each row. -/
def Pref.getRows (p : Pref) (res : Except String (List Row)) : Prefs :=
  match res with
  | .error _ => ([] : List Pref)
  | .ok rows => rows.map (scanGetRow p)

/-- `Pref.get` on a healthy backend: the query returns exactly the rows
matched by its WHERE clause, in storage order. -/
def Pref.get (p : Pref) (db : DB) : Prefs :=
  p.getRows (.ok (List.filter (getWhere p) db))

/-- `Pref.Get`: panics (modelled as `.error`) with "TOO MANY PREFS" when
the exact-match query returns more than one row; returns the single row on
size 1; returns `*in` with `Success = false` on size 0. -/
def Pref.Get (p : Pref) (db : DB) : Except String Pref :=
  let prefs := p.get db
  if List.length prefs == 1 then
    .ok (List.headD prefs p)
  else if List.length prefs > 1 then
    .error "TOO MANY PREFS"
  else if List.length prefs == 0 then
    .ok { p with Success := false }
  else
    .error "BUG: should be impossible to reach this point"

/-- The `Pref` struct literal that `GetPref` builds from its arguments. -/
def inputPref (user broker channel plugin key defv : String) : Pref :=
  { User := user, Channel := channel, Broker := broker, Plugin := plugin,
    Key := key, Default := defv }

/-- `GetPref(user, broker, channel, plugin, key, def)`: builds the `Pref`
struct, calls `Get`, returns it if `Success`, else returns the struct with
`Value = def`.  A panic in `Get` propagates. -/
def GetPref (user broker channel plugin key defv : String) (db : DB) :
    Except String Pref :=
  let pref : Pref := inputPref user broker channel plugin key defv
  match pref.Get db with
  | .error e => .error e
  | .ok up => if up.Success then .ok up else .ok { pref with Value := defv }

/-- `GetPrefs(user, broker, channel, plugin)`: exact match on the four
scope fields via `pref.get` with an empty `Key`. -/
def GetPrefs (user broker channel plugin : String) (db : DB) : Prefs :=
  let pref : Pref :=
    { User := user, Broker := broker, Channel := channel, Plugin := plugin }
  pref.get db

/-- `GetUserPrefs(user)`: `pref.get` with only `User` set. -/
def GetUserPrefs (user : String) (db : DB) : Prefs :=
  Pref.get { User := user } db

/-- `GetChannelPrefs(channel)`: `pref.get` with only `Channel` set. -/
def GetChannelPrefs (channel : String) (db : DB) : Prefs :=
  Pref.get { Channel := channel } db

/-- `GetBrokerPrefs(broker)`: `pref.get` with only `Broker` set. -/
def GetBrokerPrefs (broker : String) (db : DB) : Prefs :=
  Pref.get { Broker := broker } db

/-- `GetPluginPrefs(plugin)`: `pref.get` with only `Plugin` set. -/
def GetPluginPrefs (plugin : String) (db : DB) : Prefs :=
  Pref.get { Plugin := plugin } db

/-- Disjunctive WHERE clause built by `Pref.Find`: each non-empty field
among user, channel, broker, plugin, key contributes an equality clause and
the clauses are OR-ed. -/
def findWhere (p : Pref) (r : Row) : Bool :=
  (p.User != "" && r.user == p.User) ||
  (p.Channel != "" && r.channel == p.Channel) ||
  (p.Broker != "" && r.broker == p.Broker) ||
  (p.Plugin != "" && r.plugin == p.Plugin) ||
  (p.Key != "" && r.pkey == p.Key)

/-- True when `Pref.Find` adds no field clause at all, so the generated SQL
has no WHERE clause and matches every row. -/
def findAllEmpty (p : Pref) : Bool :=
  p.User == "" && p.Channel == "" && p.Broker == "" && p.Plugin == "" &&
    p.Key == ""

/-- The rows returned by the query that `Pref.Find` generates. -/
def findRowsOf (p : Pref) (db : DB) : List Row :=
  if findAllEmpty p then db else List.filter (findWhere p) db

/-- One iteration of the scan loop in `Pref.Find` (success path):
`row := Pref{}` then scan the six columns, `row.Error = nil`,
`row.Success = true`. -/
def scanFindRow (r : Row) : Pref :=
  { User := r.user, Channel := r.channel, Broker := r.broker,
    Plugin := r.plugin, Key := r.pkey, Value := r.value,
    Success := true, Error := none }

/-- The part of `Pref.Find` after `db.Query` returned: on query failure it
logs and returns the empty list; otherwise it scans each row. -/
def Pref.findRows (res : Except String (List Row)) : Prefs :=
  match res with
  | .error _ => ([] : List Pref)
  | .ok rows => rows.map scanFindRow

/-- `Pref.Find` on a healthy backend. -/
def Pref.Find (p : Pref) (db : DB) : Prefs :=
  Pref.findRows (.ok (findRowsOf p db))

/-- `FindPrefs(user, broker, channel, plugin, key)`. -/
def FindPrefs (user broker channel plugin key : String) (db : DB) : Prefs :=
  Pref.Find { User := user, Broker := broker, Channel := channel,
              Plugin := plugin, Key := key } db

/-- Two rows agree on the 5-column primary key
`(user, channel, broker, plugin, pkey)`. -/
def sameKey (a b : Row) : Bool :=
  a.user == b.user && a.channel == b.channel && a.broker == b.broker &&
    a.plugin == b.plugin && a.pkey == b.pkey

/-- The row that `Pref.Set` writes for its receiver. -/
def prefRow (p : Pref) : Row :=
  { user := p.User, channel := p.Channel, broker := p.Broker,
    plugin := p.Plugin, pkey := p.Key, value := p.Value }

/-- `INSERT ... ON DUPLICATE KEY UPDATE` keyed on the 5-column primary key:
if a row with the same key tuple exists it is overwritten in place,
otherwise the new row is appended. -/
def upsert (r : Row) (db : DB) : DB :=
  if List.any db (fun r2 => sameKey r2 r) then
    List.map (fun r2 => if sameKey r2 r then r else r2) db
  else
    db ++ [r]

/-- The effect of a successful `Pref.Set` on the stored relation. -/
def Pref.SetDB (p : Pref) (db : DB) : DB :=
  upsert (prefRow p) db

/-- `Pref.Set` on a healthy backend: performs the upsert and returns
`in.Get()` against the updated store, paired with that store. -/
def Pref.Set (p : Pref) (db : DB) : DB × Except String Pref :=
  let db2 := p.SetDB db
  (db2, p.Get db2)

/-- Primary-key invariant of `PREFS_TABLE`: at most one stored row per
`(user, channel, broker, plugin, pkey)` tuple. -/
def KeyUnique (db : DB) : Prop :=
  List.Pairwise (fun a b => sameKey a b = false) db

instance (db : DB) : Decidable (KeyUnique db) :=
  inferInstanceAs (Decidable (List.Pairwise _ db))

/-- `Prefs.User`: filters the preference list by user. -/
def Prefs.User (prefs : Prefs) (user : String) : Prefs :=
  List.filter (fun pref => pref.User == user) prefs

/-- `Prefs.Channel`: filters the preference list by channel. -/
def Prefs.Channel (prefs : Prefs) (channel : String) : Prefs :=
  List.filter (fun pref => pref.Channel == channel) prefs

/-- `Prefs.Broker`: filters the preference list by broker. -/
def Prefs.Broker (prefs : Prefs) (broker : String) : Prefs :=
  List.filter (fun pref => pref.Broker == broker) prefs

/-- `Prefs.Plugin`: filters the preference list by plugin. -/
def Prefs.Plugin (prefs : Prefs) (plugin : String) : Prefs :=
  List.filter (fun pref => pref.Plugin == plugin) prefs

/-- `Prefs.Table`: header row followed by the six fields of each record. -/
def Prefs.Table (prefs : Prefs) : List (List String) :=
  ["User", "Channel", "Broker", "Plugin", "Key", "Value"] ::
    List.map (fun pref =>
      [pref.User, pref.Channel, pref.Broker, pref.Plugin, pref.Key,
       pref.Value]) prefs

/-! ### Helper lemmas about the primary key and the upsert -/

lemma sameKey_refl (r : Row) : sameKey r r = true := by
  simp [sameKey]

lemma sameKey_symm {a b : Row} (h : sameKey a b = true) : sameKey b a = true := by
  simp only [sameKey, Bool.and_eq_true, beq_iff_eq] at h ⊢
  obtain ⟨⟨⟨⟨h1, h2⟩, h3⟩, h4⟩, h5⟩ := h
  exact ⟨⟨⟨⟨h1.symm, h2.symm⟩, h3.symm⟩, h4.symm⟩, h5.symm⟩

lemma sameKey_trans {a b c : Row} (hab : sameKey a b = true)
    (hbc : sameKey b c = true) : sameKey a c = true := by
  simp only [sameKey, Bool.and_eq_true, beq_iff_eq] at hab hbc ⊢
  obtain ⟨⟨⟨⟨a1, a2⟩, a3⟩, a4⟩, a5⟩ := hab
  obtain ⟨⟨⟨⟨b1, b2⟩, b3⟩, b4⟩, b5⟩ := hbc
  exact ⟨⟨⟨⟨a1.trans b1, a2.trans b2⟩, a3.trans b3⟩, a4.trans b4⟩, a5.trans b5⟩

lemma filter_replace_eq (r : Row) (db : DB) (hu : KeyUnique db) :
    List.filter (fun x => sameKey x r)
      (List.map (fun r2 => if sameKey r2 r then r else r2) db) =
      (if List.any db (fun r2 => sameKey r2 r) then [r] else []) := by
  induction db with
  | nil => simp
  | cons a tl ih =>
    have hu2 := List.pairwise_cons.mp hu
    by_cases ha : sameKey a r = true
    · have htl : ∀ b ∈ tl, sameKey b r = false := by
        intro b hb
        by_contra hbr
        rw [Bool.not_eq_false] at hbr
        have hab : sameKey a b = true := sameKey_trans ha (sameKey_symm hbr)
        have := hu2.1 b hb
        rw [this] at hab
        exact Bool.false_ne_true hab
      have hmap : List.map (fun r2 => if sameKey r2 r then r else r2) tl = tl := by
        conv_rhs => rw [← List.map_id tl]
        apply List.map_congr_left
        intro b hb
        rw [htl b hb]
        simp
      simp only [List.map_cons, if_pos ha, List.any_cons, ha, Bool.true_or,
        if_pos, List.filter_cons, sameKey_refl, hmap]
      rw [List.filter_eq_nil_iff.mpr]
      intro b hb
      rw [htl b hb]
      simp
    · rw [Bool.not_eq_true] at ha
      simp only [List.map_cons, ha, Bool.false_eq_true, if_false,
        List.filter_cons, List.any_cons, Bool.false_or]
      rw [ih hu2.2]

lemma upsert_filter (r : Row) (db : DB) (hu : KeyUnique db) :
    List.filter (fun x => sameKey x r) (upsert r db) = [r] := by
  unfold upsert
  by_cases hany : List.any db (fun r2 => sameKey r2 r) = true
  · rw [if_pos hany, filter_replace_eq r db hu, if_pos hany]
  · rw [if_neg hany, List.filter_append]
    rw [Bool.not_eq_true, List.any_eq_false] at hany
    rw [List.filter_eq_nil_iff.mpr (by intro b hb; simp [hany b hb])]
    simp [sameKey_refl]

lemma upsert_keyUnique (r : Row) (db : DB) (hu : KeyUnique db) :
    KeyUnique (upsert r db) := by
  unfold upsert
  by_cases hany : List.any db (fun r2 => sameKey r2 r) = true
  · rw [if_pos hany]
    rw [KeyUnique, List.pairwise_map]
    have step : ∀ a b : Row, sameKey a b = false →
        sameKey (if sameKey a r then r else a) (if sameKey b r then r else b)
          = false := by
      intro a b hab
      by_cases har : sameKey a r = true
      · by_cases hbr : sameKey b r = true
        · have : sameKey a b = true := sameKey_trans har (sameKey_symm hbr)
          rw [hab] at this
          exact absurd this Bool.false_ne_true
        · rw [if_pos har, if_neg hbr]
          by_contra hc
          rw [Bool.not_eq_false] at hc
          exact hbr (sameKey_symm hc)
      · by_cases hbr : sameKey b r = true
        · rw [if_neg har, if_pos hbr]
          by_contra hc
          rw [Bool.not_eq_false] at hc
          exact har hc
        · rw [if_neg har, if_neg hbr]
          exact hab
    exact hu.imp (fun h => step _ _ h)
  · rw [if_neg hany]
    rw [Bool.not_eq_true, List.any_eq_false] at hany
    rw [KeyUnique, List.pairwise_append]
    refine ⟨hu, by simp [KeyUnique], ?_⟩
    intro a ha b hb
    rw [List.mem_singleton] at hb
    subst hb
    simpa using hany a ha

lemma upsert_mem_self (r : Row) (db : DB) :
    List.any (upsert r db) (fun r2 => sameKey r2 r) = true := by
  unfold upsert
  by_cases hany : List.any db (fun r2 => sameKey r2 r) = true
  · rw [if_pos hany]
    rw [List.any_eq_true] at hany ⊢
    obtain ⟨x, hx, hxr⟩ := hany
    exact ⟨r, List.mem_map.mpr ⟨x, hx, by rw [if_pos hxr]⟩, sameKey_refl r⟩
  · rw [if_neg hany]
    rw [List.any_eq_true]
    exact ⟨r, List.mem_append_right _ (List.mem_singleton.mpr rfl),
      sameKey_refl r⟩

lemma map_id_of_fixed {f : Row → Row} (l : List Row)
    (h : ∀ x ∈ l, f x = x) : List.map f l = l := by
  induction l with
  | nil => rfl
  | cons a tl ih =>
    rw [List.map_cons, h a (List.mem_cons_self a tl),
      ih (fun x hx => h x (List.mem_cons_of_mem a hx))]

lemma upsert_fixed (r : Row) (db : DB) :
    ∀ x ∈ upsert r db, (if sameKey x r then r else x) = x := by
  intro x hx
  unfold upsert at hx
  by_cases hany : List.any db (fun r2 => sameKey r2 r) = true
  · rw [if_pos hany] at hx
    obtain ⟨y, _, rfl⟩ := List.mem_map.mp hx
    by_cases hyr : sameKey y r = true
    · rw [if_pos hyr, if_pos (sameKey_refl r)]
    · rw [if_neg hyr, if_neg hyr]
  · rw [if_neg hany] at hx
    rcases List.mem_append.mp hx with h | h
    · rw [Bool.not_eq_true, List.any_eq_false] at hany
      simp [hany x h]
    · rw [List.mem_singleton.mp h]
      rw [if_pos (sameKey_refl r)]

lemma upsert_idem (r : Row) (db : DB) :
    upsert r (upsert r db) = upsert r db := by
  conv_lhs => rw [upsert]
  rw [if_pos (upsert_mem_self r db)]
  exact map_id_of_fixed _ (upsert_fixed r db)

lemma two_le_length_of_mem {α : Type} {a b : α} {l : List α}
    (ha : a ∈ l) (hb : b ∈ l) (hne : a ≠ b) : 2 ≤ l.length := by
  rcases l with _ | ⟨x, l2⟩
  · simp at ha
  rcases l2 with _ | ⟨y, l3⟩
  · rw [List.mem_singleton] at ha hb
    exact absurd (ha.trans hb.symm) hne
  · simp only [List.length_cons]
    omega

lemma get_length_eq (p : Pref) (db : DB) :
    (p.get db).length = (List.filter (getWhere p) db).length := by
  simp [Pref.get, Pref.getRows]

/-! ### Claim theorems -/

/-- C7: when the storage backend reports a read failure, both `Pref.get`
and `Pref.Find` log it and return an empty result set; the error is never
propagated to the caller (both functions return normally). -/
theorem C7_backend_failure_swallowed (p : Pref) (e : String) :
    Pref.getRows p (.error e) = ([] : Prefs) ∧
    Pref.findRows (.error e) = ([] : Prefs) :=
  ⟨rfl, rfl⟩

/-- C9: when the exact-match query returns zero rows, `Pref.Get` returns a
copy of its receiver with `Success = false` and every other field
unchanged; in particular `Value` is left as is, not set to `Default`. -/
theorem C9_get_miss_frame (p : Pref) (db : DB) (h : p.get db = []) :
    p.Get db = .ok { p with Success := false } := by
  simp [Pref.Get, h]

/-- C9 witness: a receiver with `Value = "keep"` and `Default = "D"` queried
against an empty store comes back with `Success = false` and `Value` still
`"keep"`. -/
theorem C9_get_miss_frame_witness :
    Pref.Get { Key := "k", Value := "keep", Default := "D" } [] =
      .ok { Key := "k", Value := "keep", Default := "D", Success := false } :=
  C9_get_miss_frame { Key := "k", Value := "keep", Default := "D" } [] rfl

/-- C3: when the exact-match query returns two or more rows, `Pref.Get`
stops with the fatal panic `"TOO MANY PREFS"` (modelled as `.error`)
instead of returning any row; for result sizes 0 and 1 it returns normally
(`.ok`). -/
theorem C3_get_multiplicity_fatal (p : Pref) (db : DB) :
    (2 ≤ (p.get db).length → p.Get db = .error "TOO MANY PREFS") ∧
    ((p.get db).length ≤ 1 → ∃ r, p.Get db = .ok r) := by
  constructor
  · intro h2
    have h1 : ((p.get db).length == 1) = false := by
      simp only [beq_eq_false_iff_ne, ne_eq]
      omega
    have hgt : (p.get db).length > 1 := by omega
    simp [Pref.Get, h1, hgt]
  · intro hle
    rcases Nat.lt_or_ge (p.get db).length 1 with h | h
    · have h0 : (p.get db).length = 0 := by omega
      exact ⟨{ p with Success := false }, by simp [Pref.Get, h0]⟩
    · have h1 : (p.get db).length = 1 := by omega
      exact ⟨(p.get db).headD p, by simp [Pref.Get, h1]⟩

/-- C3 witness: a store with two rows under the same scope and key makes
`Pref.Get` fatal, while the empty store returns normally. -/
theorem C3_get_multiplicity_fatal_witness :
    Pref.Get { User := "u", Key := "k" }
        [{ user := "u", pkey := "k", value := "a" },
         { user := "u", pkey := "k", value := "b" }] =
      .error "TOO MANY PREFS" ∧
    ∃ r, Pref.Get { User := "u", Key := "k" } [] = .ok r :=
  ⟨(C3_get_multiplicity_fatal { User := "u", Key := "k" }
      [{ user := "u", pkey := "k", value := "a" },
       { user := "u", pkey := "k", value := "b" }]).1 (by decide),
   (C3_get_multiplicity_fatal { User := "u", Key := "k" } []).2 (by decide)⟩

/-- C8: the fatal multiplicity condition is reachable on uncorrupted
storage: with `Key = ""` the query omits the `pkey` clause, so a store
satisfying the primary-key invariant that holds two rows with the same
scope but distinct `pkey` values makes `Pref.Get` panic. -/
theorem C8_empty_key_panic (p : Pref) (db : DB) (hu : KeyUnique db)
    (hkey : p.Key = "") (r1 r2 : Row) (h1 : r1 ∈ db) (h2 : r2 ∈ db)
    (hne : r1.pkey ≠ r2.pkey) (hm1 : getWhere p r1 = true)
    (hm2 : getWhere p r2 = true) :
    p.Get db = .error "TOO MANY PREFS" := by
  have hr : r1 ≠ r2 := fun h => hne (congrArg Row.pkey h)
  have hf1 : r1 ∈ List.filter (getWhere p) db := List.mem_filter.mpr ⟨h1, hm1⟩
  have hf2 : r2 ∈ List.filter (getWhere p) db := List.mem_filter.mpr ⟨h2, hm2⟩
  have h2le : 2 ≤ (p.get db).length := by
    rw [get_length_eq]
    exact two_le_length_of_mem hf1 hf2 hr
  have h1f : ((p.get db).length == 1) = false := by
    simp only [beq_eq_false_iff_ne, ne_eq]
    omega
  have hgt : (p.get db).length > 1 := by omega
  simp [Pref.Get, h1f, hgt]

/-- C8 witness: two rows sharing the scope `user = "u"` with distinct keys
`"k1"`, `"k2"` satisfy the primary-key invariant, yet `Pref.Get` with an
empty `Key` panics on them. -/
theorem C8_empty_key_panic_witness :
    KeyUnique [{ user := "u", pkey := "k1" }, { user := "u", pkey := "k2" }] ∧
    Pref.Get { User := "u" }
        [{ user := "u", pkey := "k1" }, { user := "u", pkey := "k2" }] =
      .error "TOO MANY PREFS" :=
  ⟨by decide,
   C8_empty_key_panic { User := "u" }
     [{ user := "u", pkey := "k1" }, { user := "u", pkey := "k2" }]
     (by decide) rfl
     { user := "u", pkey := "k1" } { user := "u", pkey := "k2" }
     (by decide) (by decide) (by decide) (by decide) (by decide)⟩

def dbC1 : DB := [{ user := "alice", pkey := "tz", value := "UTC" }]

/-- C1: the claim fails on the code. After `Set` stores value `"UTC"` for
scope `(user = "alice")` and key `"tz"`, `GetPref` on exactly that tuple
returns the supplied default `"unset"` with `Success = false` instead of
the stored value: `Pref.get` never sets `Success = true` on a scanned row
(unlike `Pref.Find`), so the `up.Success` test in `GetPref` always fails
and the default branch is taken. -/
theorem C1_getpref_returns_default_after_set :
    Pref.SetDB { User := "alice", Key := "tz", Value := "UTC" } [] = dbC1 ∧
    GetPref "alice" "" "" "" "tz" "unset" dbC1 =
      .ok { User := "alice", Key := "tz", Value := "unset",
            Default := "unset", Success := false } := by
  constructor
  · rfl
  · rfl

/-- C2: when no stored record matches the scope tuple and key exactly,
`GetPref` returns a record carrying the default as `Value`,
`Success = false`, and every original scope field preserved; moreover the
resolver consults storage only through its single exact-match query — two
stores on which that query returns the same rows give the same result
(no scope-widening fallback or retry). -/
theorem C2_getpref_miss (user broker channel plugin key defv : String)
    (db : DB)
    (h : Pref.get (inputPref user broker channel plugin key defv) db = []) :
    GetPref user broker channel plugin key defv db =
      .ok { User := user, Channel := channel, Broker := broker,
            Plugin := plugin, Key := key, Value := defv, Default := defv,
            Success := false, Error := none } ∧
    (∀ db1 db2 : DB,
      List.filter (getWhere (inputPref user broker channel plugin key defv))
          db1 =
        List.filter (getWhere (inputPref user broker channel plugin key defv))
          db2 →
      GetPref user broker channel plugin key defv db1 =
        GetPref user broker channel plugin key defv db2) := by
  constructor
  · simp only [inputPref] at h
    simp [GetPref, Pref.Get, inputPref, h]
  · intro db1 db2 h12
    simp only [GetPref, Pref.Get, Pref.get, Pref.getRows, h12]

def dbC2 : DB := [{ user := "alice", pkey := "tz", value := "UTC" }]

/-- C2 witness: no record for user `"bob"` is stored, so `GetPref` returns
the default with the scope fields intact. -/
theorem C2_getpref_miss_witness :
    GetPref "bob" "" "" "" "tz" "unset" dbC2 =
      .ok { User := "bob", Channel := "", Broker := "", Plugin := "",
            Key := "tz", Value := "unset", Default := "unset",
            Success := false, Error := none } :=
  (C2_getpref_miss "bob" "" "" "" "tz" "unset" dbC2 (by decide)).1

/-- C6: `GetPrefs` returns exactly the stored records whose four scope
columns each equal the corresponding input (an empty input matches only an
empty column — strict conjunction, no key clause, no wildcard), and every
single-dimension convenience variant equals `GetPrefs` with the other
three fields empty. -/
theorem C6_getprefs_conjunction (user broker channel plugin : String)
    (db : DB) :
    GetPrefs user broker channel plugin db =
      List.map
        (scanGetRow { User := user, Broker := broker, Channel := channel,
                      Plugin := plugin })
        (List.filter
          (fun r => r.user == user && r.channel == channel &&
            r.broker == broker && r.plugin == plugin) db) ∧
    (∀ u : String, ∀ d : DB, GetUserPrefs u d = GetPrefs u "" "" "" d) ∧
    (∀ c : String, ∀ d : DB, GetChannelPrefs c d = GetPrefs "" "" c "" d) ∧
    (∀ b : String, ∀ d : DB, GetBrokerPrefs b d = GetPrefs "" b "" "" d) ∧
    (∀ pl : String, ∀ d : DB, GetPluginPrefs pl d = GetPrefs "" "" "" pl d) := by
  refine ⟨?_, fun u d => rfl, fun c d => rfl, fun b d => rfl, fun pl d => rfl⟩
  simp only [GetPrefs, Pref.get, Pref.getRows]
  congr 1
  apply List.filter_congr
  intro r _
  simp [getWhere]

/-- C10: the result-set filters `Prefs.User/Channel/Broker/Plugin` are
idempotent and pairwise commutative, and each returns an order-preserving
subsequence (sublist) of its input; being pure functions of the input
list, they never mutate it. -/
theorem C10_filter_algebra (ps : Prefs) (u c b pl : String) :
    (Prefs.User (Prefs.User ps u) u = Prefs.User ps u) ∧
    (Prefs.Channel (Prefs.Channel ps c) c = Prefs.Channel ps c) ∧
    (Prefs.Broker (Prefs.Broker ps b) b = Prefs.Broker ps b) ∧
    (Prefs.Plugin (Prefs.Plugin ps pl) pl = Prefs.Plugin ps pl) ∧
    (Prefs.Channel (Prefs.User ps u) c = Prefs.User (Prefs.Channel ps c) u) ∧
    (Prefs.Broker (Prefs.User ps u) b = Prefs.User (Prefs.Broker ps b) u) ∧
    (Prefs.Plugin (Prefs.User ps u) pl = Prefs.User (Prefs.Plugin ps pl) u) ∧
    (Prefs.Broker (Prefs.Channel ps c) b =
      Prefs.Channel (Prefs.Broker ps b) c) ∧
    (Prefs.Plugin (Prefs.Channel ps c) pl =
      Prefs.Channel (Prefs.Plugin ps pl) c) ∧
    (Prefs.Plugin (Prefs.Broker ps b) pl =
      Prefs.Broker (Prefs.Plugin ps pl) b) ∧
    (Prefs.User ps u).Sublist ps ∧ (Prefs.Channel ps c).Sublist ps ∧
    (Prefs.Broker ps b).Sublist ps ∧ (Prefs.Plugin ps pl).Sublist ps := by
  and_intros <;>
    first
      | exact List.filter_sublist _
      | (simp only [Prefs.User, Prefs.Channel, Prefs.Broker, Prefs.Plugin,
          List.filter_filter]
         first
           | simp
           | (apply List.filter_congr
              intro x _
              exact Bool.and_comm _ _))

def setPref (user channel broker plugin key v : String) : Pref :=
  { User := user, Channel := channel, Broker := broker, Plugin := plugin,
    Key := key, Value := v }

/-- C4: writing `(T, K, V1)` then `(T, K, V2)` into a store satisfying the
primary-key invariant leaves exactly one row for `(T, K)`, holding `V2`;
every `Set` preserves the at-most-one-row-per-key invariant; and writing
the same row twice leaves the store exactly as writing it once. -/
theorem C4_set_overwrite (user channel broker plugin key v1 v2 : String)
    (db : DB) (hu : KeyUnique db) :
    List.filter
        (fun r => sameKey r (prefRow (setPref user channel broker plugin key v2)))
        (Pref.SetDB (setPref user channel broker plugin key v2)
          (Pref.SetDB (setPref user channel broker plugin key v1) db)) =
      [prefRow (setPref user channel broker plugin key v2)] ∧
    (∀ q : Pref, ∀ d : DB, KeyUnique d → KeyUnique (Pref.SetDB q d)) ∧
    (∀ q : Pref, ∀ d : DB, Pref.SetDB q (Pref.SetDB q d) = Pref.SetDB q d) := by
  refine ⟨?_, fun q d hd => upsert_keyUnique _ _ hd,
    fun q d => upsert_idem _ _⟩
  exact upsert_filter _ _ (upsert_keyUnique _ _ hu)

/-- C4 witness: starting from the empty (hence key-unique) store, two
writes to the same `(scope, key)` leave exactly one row, with the second
value. -/
theorem C4_set_overwrite_witness :
    List.filter
        (fun r => sameKey r (prefRow (setPref "u" "c" "b" "p" "k" "v2")))
        (Pref.SetDB (setPref "u" "c" "b" "p" "k" "v2")
          (Pref.SetDB (setPref "u" "c" "b" "p" "k" "v1") [])) =
      [prefRow (setPref "u" "c" "b" "p" "k" "v2")] :=
  (C4_set_overwrite "u" "c" "b" "p" "k" "v1" "v2" [] (by decide)).1

/-- Every equality clause that the receiver `p` contributes to the
disjunctive query of `Pref.Find` is also contributed, with the same value,
by `q`; i.e. `q` supplies at least the non-empty fields of `p`. -/
def findFieldsLE (p q : Pref) : Bool :=
  (p.User == "" || q.User == p.User) &&
  (p.Channel == "" || q.Channel == p.Channel) &&
  (p.Broker == "" || q.Broker == p.Broker) &&
  (p.Plugin == "" || q.Plugin == p.Plugin) &&
  (p.Key == "" || q.Key == p.Key)

lemma clause_mono {pv qv rv : String} (hle : pv = "" ∨ qv = pv)
    (h : ¬pv = "" ∧ rv = pv) : ¬qv = "" ∧ rv = qv := by
  rcases hle with h0 | h0
  · exact absurd h0 h.1
  · exact ⟨fun hq => h.1 (h0.symm.trans hq), h.2.trans h0.symm⟩

lemma findWhere_mono {p q : Pref} (hle : findFieldsLE p q = true) (r : Row)
    (h : findWhere p r = true) : findWhere q r = true := by
  simp only [findFieldsLE, Bool.and_eq_true, Bool.or_eq_true,
    beq_iff_eq] at hle
  simp only [findWhere, Bool.or_eq_true, Bool.and_eq_true, bne_iff_ne,
    ne_eq, beq_iff_eq] at h ⊢
  obtain ⟨⟨⟨⟨hu, hc⟩, hb⟩, hp⟩, hk⟩ := hle
  rcases h with ((((h | h) | h) | h) | h)
  · exact Or.inl (Or.inl (Or.inl (Or.inl (clause_mono hu h))))
  · exact Or.inl (Or.inl (Or.inl (Or.inr (clause_mono hc h))))
  · exact Or.inl (Or.inl (Or.inr (clause_mono hb h)))
  · exact Or.inl (Or.inr (clause_mono hp h))
  · exact Or.inr (clause_mono hk h)

lemma findAllEmpty_mono {p q : Pref} (hle : findFieldsLE p q = true)
    (hne : findAllEmpty p = false) : findAllEmpty q = false := by
  by_contra hq
  rw [Bool.not_eq_false] at hq
  rw [← Bool.not_eq_true] at hne
  apply hne
  simp only [findFieldsLE, Bool.and_eq_true, Bool.or_eq_true,
    beq_iff_eq] at hle
  simp only [findAllEmpty, Bool.and_eq_true, beq_iff_eq] at hq ⊢
  obtain ⟨⟨⟨⟨u, c⟩, b⟩, pl⟩, k⟩ := hq
  obtain ⟨⟨⟨⟨hu, hc⟩, hb⟩, hp⟩, hk⟩ := hle
  exact ⟨⟨⟨⟨hu.elim id (fun h => h.symm.trans u),
    hc.elim id (fun h => h.symm.trans c)⟩,
    hb.elim id (fun h => h.symm.trans b)⟩,
    hp.elim id (fun h => h.symm.trans pl)⟩,
    hk.elim id (fun h => h.symm.trans k)⟩

def dbC5 : DB := [{ user := "a", pkey := "k", value := "v" }]

def pC5small : Pref := {}

def pC5big : Pref := { User := "b" }

/-- C5 counterexample: going from zero non-empty fields (which returns the
entire relation) to one non-empty field is "supplying strictly more
non-empty fields", yet the result set shrinks from the whole store to
nothing, refuting the claim's monotonicity consequence as stated. -/
theorem C5_counterexample :
    findFieldsLE pC5small pC5big = true ∧
    findFieldsLE pC5big pC5small = false ∧
    ¬(Pref.Find pC5small dbC5).length ≤ (Pref.Find pC5big dbC5).length := by
  refine ⟨by decide, by decide, ?_⟩
  decide

/-- C5 amended: `Pref.Find` returns exactly the stored records satisfying
at least one equality clause among the non-empty input fields (OR
semantics), the all-fields-empty query returns the entire relation, and —
provided the smaller query has at least one non-empty field — supplying
strictly more non-empty fields never shrinks the result set (the smaller
result is a sublist of the larger). -/
theorem C5_find_or_semantics (p q : Pref) (db : DB)
    (hne : findAllEmpty p = false) (hle : findFieldsLE p q = true) :
    (Pref.Find p db).Sublist (Pref.Find q db) ∧
    (∀ p2 : Pref, ∀ db2 : DB, findAllEmpty p2 = true →
      Pref.Find p2 db2 = List.map scanFindRow db2) ∧
    (∀ p2 : Pref, ∀ db2 : DB, findAllEmpty p2 = false →
      Pref.Find p2 db2 =
        List.map scanFindRow (List.filter (findWhere p2) db2)) := by
  refine ⟨?_,
    fun p2 db2 h => by simp [Pref.Find, Pref.findRows, findRowsOf, h],
    fun p2 db2 h => by simp [Pref.Find, Pref.findRows, findRowsOf, h]⟩
  have hq := findAllEmpty_mono hle hne
  simp only [Pref.Find, Pref.findRows, findRowsOf, hne, hq,
    Bool.false_eq_true, if_false]
  exact (List.monotone_filter_right db
    (fun r hr => findWhere_mono hle r hr)).map scanFindRow

def pC5w : Pref := { User := "a" }

def qC5w : Pref := { User := "a", Key := "k" }

/-- C5 witness: a query on `user = "a"` is contained in the query that
additionally supplies `key = "k"`. -/
theorem C5_find_or_semantics_witness :
    (Pref.Find pC5w dbC5).Sublist (Pref.Find qC5w dbC5) :=
  (C5_find_or_semantics pC5w qC5w dbC5 (by decide) (by decide)).1
